import Mathlib

/-!
Verification of the MMD character animation engine core (rust_engine).

The definitions below are a shallow embedding of the Rust sources:
scalars become rationals, the mutable structures become records updated
functionally, and the few genuinely floating-point operations
(IEEE decoding, quaternion normalization, slerp, Bezier evaluation)
are abstracted as explicit functional parameters so that every claim
about control flow, data routing and exact arithmetic is settled
precisely.
-/

namespace MMD

/-- Three-component vector over rationals, mirroring `glam::Vec3`. -/
structure V3 where
  x : ℚ
  y : ℚ
  z : ℚ
  deriving DecidableEq, Repr

/-- Two-component vector over rationals, mirroring `glam::Vec2`. -/
structure V2 where
  x : ℚ
  y : ℚ
  deriving DecidableEq, Repr

/-- Four-component vector over rationals, mirroring `glam::Vec4`. -/
structure V4 where
  x : ℚ
  y : ℚ
  z : ℚ
  w : ℚ
  deriving DecidableEq, Repr

/-- Quaternion over rationals, mirroring `glam::Quat` (x, y, z, w). -/
structure Q4 where
  x : ℚ
  y : ℚ
  z : ℚ
  w : ℚ
  deriving DecidableEq, Repr

theorem V3.ext_iff2 (a b : V3) : a = b ↔ a.x = b.x ∧ a.y = b.y ∧ a.z = b.z := by
  cases a; cases b; simp

instance : Add V3 := ⟨fun a b => ⟨a.x + b.x, a.y + b.y, a.z + b.z⟩⟩

theorem v3_add_def (a b : V3) : a + b = ⟨a.x + b.x, a.y + b.y, a.z + b.z⟩ := rfl

instance : Add V2 := ⟨fun a b => ⟨a.x + b.x, a.y + b.y⟩⟩

instance : Add V4 := ⟨fun a b => ⟨a.x + b.x, a.y + b.y, a.z + b.z, a.w + b.w⟩⟩

/-- Scalar multiplication for `V3` (componentwise, as in glam). -/
def V3.smul (v : V3) (s : ℚ) : V3 := ⟨v.x * s, v.y * s, v.z * s⟩

/-- Scalar multiplication for `V2`. -/
def V2.smul (v : V2) (s : ℚ) : V2 := ⟨v.x * s, v.y * s⟩

/-- Scalar multiplication for `V4`. -/
def V4.smul (v : V4) (s : ℚ) : V4 := ⟨v.x * s, v.y * s, v.z * s, v.w * s⟩

/-- Zero vector. -/
def V3.zero : V3 := ⟨0, 0, 0⟩

theorem V3.add_zero (a : V3) : a + V3.zero = a := by
  cases a; simp [v3_add_def, V3.zero]

theorem V3.zero_add (a : V3) : V3.zero + a = a := by
  cases a; simp [v3_add_def, V3.zero]

/-- Identity quaternion (`Quat::IDENTITY`). -/
def Q4.one : Q4 := ⟨0, 0, 0, 1⟩

/-- Hamilton product, mirroring `glam::Quat::mul`. -/
def qmul (a b : Q4) : Q4 :=
  ⟨a.w * b.x + a.x * b.w + a.y * b.z - a.z * b.y,
   a.w * b.y - a.x * b.z + a.y * b.w + a.z * b.x,
   a.w * b.z + a.x * b.y - a.y * b.x + a.z * b.w,
   a.w * b.w - a.x * b.x - a.y * b.y - a.z * b.z⟩

theorem qmul_one (a : Q4) : qmul a Q4.one = a := by
  cases a; simp [qmul, Q4.one]

theorem one_qmul (a : Q4) : qmul Q4.one a = a := by
  cases a; simp [qmul, Q4.one]

/-- Column-major 3x3 matrix, mirroring `glam::Mat3`. -/
structure M3 where
  c0 : V3
  c1 : V3
  c2 : V3
  deriving DecidableEq, Repr

/-- Matrix-vector product (columns weighted by components). -/
def M3.mulVec (m : M3) (v : V3) : V3 :=
  m.c0.smul v.x + m.c1.smul v.y + m.c2.smul v.z

/-- Matrix-matrix product. -/
def M3.mul (a b : M3) : M3 :=
  ⟨a.mulVec b.c0, a.mulVec b.c1, a.mulVec b.c2⟩

/-- Identity matrix. -/
def M3.id : M3 := ⟨⟨1, 0, 0⟩, ⟨0, 1, 0⟩, ⟨0, 0, 1⟩⟩

theorem M3.id_mulVec (v : V3) : M3.id.mulVec v = v := by
  cases v; simp [M3.mulVec, M3.id, V3.smul, v3_add_def]

theorem M3.id_mul (m : M3) : M3.id.mul m = m := by
  cases m; simp [M3.mul, M3.id_mulVec]

/-- Rotation matrix of a quaternion, the `glam::Mat3::from_quat` formula. -/
def rotMat (q : Q4) : M3 :=
  let x2 := q.x + q.x
  let y2 := q.y + q.y
  let z2 := q.z + q.z
  let xx := q.x * x2
  let xy := q.x * y2
  let xz := q.x * z2
  let yy := q.y * y2
  let yz := q.y * z2
  let zz := q.z * z2
  let wx := q.w * x2
  let wy := q.w * y2
  let wz := q.w * z2
  ⟨⟨1 - (yy + zz), xy + wz, xz - wy⟩,
   ⟨xy - wz, 1 - (xx + zz), yz + wx⟩,
   ⟨xz + wy, yz - wx, 1 - (xx + yy)⟩⟩

/-- Affine transform: the rotation/linear block plus the translation column
of a `glam::Mat4` whose last row is (0,0,0,1). -/
structure Affine where
  linear : M3
  trans : V3
  deriving DecidableEq, Repr

/-- Composition of affine transforms; `Affine.comp a b` is the matrix
product `a * b` of the corresponding `Mat4`s. -/
def Affine.comp (a b : Affine) : Affine :=
  ⟨a.linear.mul b.linear, a.linear.mulVec b.trans + a.trans⟩

/-- Pure translation matrix `T(v)`. -/
def translationAffine (v : V3) : Affine := ⟨M3.id, v⟩

/-- Pure rotation matrix `R(q)`. -/
def rotationAffine (q : Q4) : Affine := ⟨rotMat q, V3.zero⟩

/-- The `glam::Mat4::from_rotation_translation` constructor. -/
def fromRotationTranslation (q : Q4) (v : V3) : Affine := ⟨rotMat q, v⟩

theorem translation_comp_rotation (v : V3) (q : Q4) :
    Affine.comp (translationAffine v) (rotationAffine q) = fromRotationTranslation q v := by
  simp [Affine.comp, translationAffine, rotationAffine, fromRotationTranslation,
    M3.id_mul, M3.id_mulVec, V3.zero_add]

-- ===========================================================================
-- Bone link (src/rust_engine/src/skeleton/bone_link.rs)
-- ===========================================================================

/-- The `BoneFlags` bitfield, one Bool per flag. -/
structure BoneFlags where
  rotatable : Bool
  movable : Bool
  ik : Bool
  append_rotate : Bool
  append_translate : Bool
  append_local : Bool
  fixed_axis : Bool
  local_axis : Bool
  deform_after_physics : Bool
  ik_enabled : Bool
  deriving DecidableEq, Repr

/-- The dynamic part of `BoneLink` needed by `compute_local_transform`. -/
structure BoneLink where
  flags : BoneFlags
  body_shift : V3
  animation_translate : V3
  animation_rotate : Q4
  ik_rotate : Q4
  append_translate : V3
  append_rotate : Q4
  local_to_parent : Affine
  deriving DecidableEq, Repr

/-- Embedding of `BoneLink::compute_local_transform`: accumulate the
translation, conditionally add the append translation, accumulate the
rotation through the IK and append factors, then store
`Mat4::from_rotation_translation(rotation, translate)`. -/
def computeLocalTransform (b : BoneLink) : BoneLink :=
  let translate := b.body_shift + b.animation_translate
  let translate := if b.flags.append_translate then translate + b.append_translate else translate
  let rotation := b.animation_rotate
  let rotation := if b.flags.ik_enabled then qmul b.ik_rotate rotation else rotation
  let rotation := if b.flags.append_rotate then qmul rotation b.append_rotate else rotation
  { b with local_to_parent := fromRotationTranslation rotation translate }

/-- C1: after `compute_local_transform`, `local_to_parent` equals
`T(body_shift + animation_translate + (append_translate if APPEND_TRANSLATE))`
composed with `R(rot)` where
`rot = (ik_rotate if IK_ENABLED) * animation_rotate * (append_rotate if APPEND_ROTATE)`,
multiplied in exactly that order. -/
theorem C1_compute_local_transform_spec (b : BoneLink) :
    (computeLocalTransform b).local_to_parent =
      Affine.comp
        (translationAffine (b.body_shift + b.animation_translate +
          (if b.flags.append_translate then b.append_translate else V3.zero)))
        (rotationAffine
          (qmul (qmul (if b.flags.ik_enabled then b.ik_rotate else Q4.one)
              b.animation_rotate)
            (if b.flags.append_rotate then b.append_rotate else Q4.one))) := by
  rw [translation_comp_rotation]
  unfold computeLocalTransform
  rcases b with ⟨flags, bs, at_, ar, ikr, apt, apr, ltp⟩
  rcases flags with ⟨f1, f2, f3, fAR, fAT, f6, f7, f8, f9, fIK⟩
  cases fAT <;> cases fIK <;> cases fAR <;>
    simp [fromRotationTranslation, qmul_one, one_qmul, V3.add_zero]

-- ===========================================================================
-- Motion track (src/rust_engine/src/animation/motion_track.rs)
-- ===========================================================================

/-- Four interpolation control bytes, e.g. `[u8; 4]` in the Rust sources. -/
abbrev ByteQuad := Nat × Nat × Nat × Nat

/-- Abstraction of the floating-point-only helpers the tracks use:
`Quat::slerp`, `Quat::normalize`, `KeyframeInterpolationPoint::curve_value`
(the Bezier evaluation through the factory) and IEEE-754 `f32` decoding.
Claims about the surrounding control flow hold for every choice of these. -/
structure FloatOps where
  slerp : Q4 → Q4 → ℚ → Q4
  qnormalize : Q4 → Q4
  curveValue : Nat → ByteQuad → ℚ → ℚ
  decodeF32 : ByteQuad → ℚ

/-- The `BoneKeyframe` record (fields as used by `motion_track.rs` and
built by `vmd_loader.rs`). -/
structure BoneKeyframe where
  frame_index : Nat
  translation : V3
  orientation : Q4
  interpolation_x : ByteQuad
  interpolation_y : ByteQuad
  interpolation_z : ByteQuad
  interpolation_r : ByteQuad
  is_physics_simulation_enabled : Bool
  deriving DecidableEq, Repr

/-- The four Bezier parameter tuples carried by a frame
(`BoneKeyframeInterpolation::build` packages the four byte tuples of a
keyframe). -/
structure BoneKeyframeInterp where
  bx : ByteQuad
  by2 : ByteQuad
  bz : ByteQuad
  br : ByteQuad
  deriving DecidableEq, Repr

/-- Modelled from the spec: the default interpolation parameters
(the linear control bytes `[20, 20, 107, 107]` of spec §8 scenario 4);
`BoneKeyframeInterpolation::default` lives in the missing
`animation/interpolation.rs`. No claim depends on this value. -/
def boneInterpDefault : BoneKeyframeInterp :=
  ⟨(20, 20, 107, 107), (20, 20, 107, 107), (20, 20, 107, 107), (20, 20, 107, 107)⟩

/-- The interpolation tuples of a keyframe, as `BoneKeyframeInterpolation::build`. -/
def interpOf (kf : BoneKeyframe) : BoneKeyframeInterp :=
  ⟨kf.interpolation_x, kf.interpolation_y, kf.interpolation_z, kf.interpolation_r⟩

/-- The `BoneFrameTransform` result record. -/
structure BoneFrameTransform where
  translation : V3
  orientation : Q4
  interpolation : BoneKeyframeInterp
  local_transform_mix : Option ℚ
  enable_physics : Bool
  disable_physics : Bool
  deriving DecidableEq, Repr

/-- The `Default` frame: identity transform, no mix, physics disabled. -/
def boneFrameDefault : BoneFrameTransform :=
  ⟨V3.zero, Q4.one, boneInterpDefault, none, false, false⟩

/-- A bone motion track: the keyframes of the `BTreeMap` listed in
ascending `frame_index` order (the order the map iterates in). -/
abbrev BoneMotionTrack := List BoneKeyframe

/-- Embedding of `BoneMotionTrack::find` body (`keyframes.get(&frame_index)`). -/
def findKeyframe (track : BoneMotionTrack) (f : Nat) : Option BoneKeyframe :=
  track.find? (fun kf => kf.frame_index == f)

/-- Embedding of `BoneMotionTrack::search_closest_keyframes`: walk the
keyframes in ascending order, remembering the last one with index `≤ f`,
and stop at the first one with index `> f`. -/
def searchClosestKeyframes :
    BoneMotionTrack → Nat → Option BoneKeyframe → Option BoneKeyframe × Option BoneKeyframe
  | [], _, prev => (prev, none)
  | kf :: rest, f, prev =>
    if kf.frame_index ≤ f then searchClosestKeyframes rest f (some kf)
    else (prev, some kf)

/-- Modelled from the spec: `coefficient` lives in the missing
`animation/interpolation.rs`; spec §4.2 samples at the normalized
`coef ∈ [0,1]` position of `frame` between `prev` and `next`. -/
def coefficient (prevIdx nextIdx frame : Nat) : ℚ :=
  ((frame : ℚ) - (prevIdx : ℚ)) / ((nextIdx : ℚ) - (prevIdx : ℚ))

/-- Modelled from the spec: `lerp_f32` of the missing
`animation/interpolation.rs`, the plain linear blend. -/
def lerpQ (a b t : ℚ) : ℚ := a + (b - a) * t

/-- Modelled from the spec: `lerp_element_wise` of the missing
`animation/interpolation.rs`; spec §4.2 blends translation
component-wise with one curve amount per axis. -/
def lerpElementWise (a b amt : V3) : V3 :=
  ⟨lerpQ a.x b.x amt.x, lerpQ a.y b.y amt.y, lerpQ a.z b.z amt.z⟩

/-- The exact-match frame produced by `BoneMotionTrack::find`. -/
def frameOfKeyframe (kf : BoneKeyframe) : BoneFrameTransform :=
  ⟨kf.translation, kf.orientation, interpOf kf, none,
   kf.is_physics_simulation_enabled, false⟩

/-- Embedding of `BoneMotionTrack::seek`. -/
def seek (fo : FloatOps) (track : BoneMotionTrack) (f : Nat) : BoneFrameTransform :=
  match findKeyframe track f with
  | some kf => frameOfKeyframe kf
  | none =>
    match searchClosestKeyframes track f none with
    | (some prev, some next) =>
      let interval := next.frame_index - prev.frame_index
      let coef := coefficient prev.frame_index next.frame_index f
      if prev.is_physics_simulation_enabled && !next.is_physics_simulation_enabled then
        ⟨next.translation, next.orientation, interpOf next, some coef, false, true⟩
      else
        let amounts : V3 :=
          ⟨fo.curveValue interval next.interpolation_x coef,
           fo.curveValue interval next.interpolation_y coef,
           fo.curveValue interval next.interpolation_z coef⟩
        let translation := lerpElementWise prev.translation next.translation amounts
        let amount := fo.curveValue interval next.interpolation_r coef
        let orientation := fo.slerp prev.orientation next.orientation amount
        ⟨translation, orientation, interpOf next, none,
         prev.is_physics_simulation_enabled && next.is_physics_simulation_enabled, false⟩
    | (some prev, none) =>
      ⟨prev.translation, prev.orientation, interpOf prev, none,
       prev.is_physics_simulation_enabled, false⟩
    | (none, some next) =>
      ⟨next.translation, next.orientation, interpOf next, none,
       next.is_physics_simulation_enabled, false⟩
    | (none, none) => boneFrameDefault

/-- C2: between two bracketing keyframes with no exact hit, the physics
handoff branch (`prev` enabled, `next` disabled) returns `next`'s pose
with `local_transform_mix = coef`, `enable_physics = false`,
`disable_physics = true`; every other flag combination returns the
normally interpolated frame with `enable_physics = prev && next` and
`disable_physics = false`. -/
theorem C2_seek_physics_handoff (fo : FloatOps) (track : BoneMotionTrack) (f : Nat)
    (prev next : BoneKeyframe)
    (hfind : findKeyframe track f = none)
    (hsearch : searchClosestKeyframes track f none = (some prev, some next)) :
    (prev.is_physics_simulation_enabled = true ∧ next.is_physics_simulation_enabled = false →
      seek fo track f =
        ⟨next.translation, next.orientation, interpOf next,
         some (coefficient prev.frame_index next.frame_index f), false, true⟩) ∧
    (¬(prev.is_physics_simulation_enabled = true ∧ next.is_physics_simulation_enabled = false) →
      seek fo track f =
        ⟨lerpElementWise prev.translation next.translation
           ⟨fo.curveValue (next.frame_index - prev.frame_index) next.interpolation_x
              (coefficient prev.frame_index next.frame_index f),
            fo.curveValue (next.frame_index - prev.frame_index) next.interpolation_y
              (coefficient prev.frame_index next.frame_index f),
            fo.curveValue (next.frame_index - prev.frame_index) next.interpolation_z
              (coefficient prev.frame_index next.frame_index f)⟩,
         fo.slerp prev.orientation next.orientation
           (fo.curveValue (next.frame_index - prev.frame_index) next.interpolation_r
              (coefficient prev.frame_index next.frame_index f)),
         interpOf next, none,
         prev.is_physics_simulation_enabled && next.is_physics_simulation_enabled, false⟩) := by
  unfold seek
  rw [hfind, hsearch]
  constructor
  · rintro ⟨hp, hn⟩
    simp [hp, hn]
  · intro hcomb
    rcases hp : prev.is_physics_simulation_enabled <;>
      rcases hn : next.is_physics_simulation_enabled <;>
      simp_all

/-- A concrete track exercising the physics handoff: keyframe 0 has
physics on, keyframe 10 has physics off. -/
def handoffTrack : BoneMotionTrack :=
  [⟨0, ⟨0, 0, 0⟩, Q4.one, (20, 20, 107, 107), (20, 20, 107, 107), (20, 20, 107, 107),
    (20, 20, 107, 107), true⟩,
   ⟨10, ⟨1, 2, 3⟩, ⟨0, 0, 0, 1⟩, (20, 20, 107, 107), (20, 20, 107, 107), (20, 20, 107, 107),
    (20, 20, 107, 107), false⟩]

/-- A concrete instantiation of the abstracted floating-point helpers. -/
def floatOps0 : FloatOps :=
  ⟨fun _ b _ => b, fun q => q, fun _ _ c => c, fun _ => 0⟩

theorem C2_seek_physics_handoff_witness :
    seek floatOps0 handoffTrack 5 =
      ⟨⟨1, 2, 3⟩, ⟨0, 0, 0, 1⟩,
       ⟨(20, 20, 107, 107), (20, 20, 107, 107), (20, 20, 107, 107), (20, 20, 107, 107)⟩,
       some (coefficient 0 10 5), false, true⟩ := by
  have h := C2_seek_physics_handoff floatOps0 handoffTrack 5
    (handoffTrack.get ⟨0, by decide⟩) (handoffTrack.get ⟨1, by decide⟩)
    (by decide) (by decide)
  exact h.1 (by decide)

-- ===========================================================================
-- VMD loader (src/rust_engine/src/animation/vmd_loader.rs)
-- ===========================================================================

/-- A `read_exact` of `n` bytes: the bytes read and the remaining input,
or failure when the input is shorter than `n`. -/
def readBytesN (n : Nat) (b : List Nat) : Option (List Nat × List Nat) :=
  if n ≤ b.length then some (b.take n, b.drop n) else none

/-- The first four bytes of a buffer as a tuple (raw `f32` bits source). -/
def quadOf (l : List Nat) : ByteQuad :=
  (l.getD 0 0, l.getD 1 0, l.getD 2 0, l.getD 3 0)

/-- Little-endian `u32` from the first four bytes. -/
def readU32LE (l : List Nat) : Nat :=
  l.getD 0 0 + 256 * l.getD 1 0 + 65536 * l.getD 2 0 + 16777216 * l.getD 3 0

/-- Embedding of `read_bone_keyframe`: 15 name bytes, a `u32` frame index,
seven `f32`s (translation x,y,z then rotation x,y,z,w), and the 64-byte
interpolation table, with the engine-space conversion of the Rust code
(column-major interpolation split, `-z` on the translation, normalized
`(x, y, -z, -w)` quaternion, physics enabled). -/
def readBoneKeyframe (fo : FloatOps) (b : List Nat) :
    Option ((List Nat × BoneKeyframe) × List Nat) :=
  match readBytesN 15 b with
  | none => none
  | some (nameBytes, b1) =>
  match readBytesN 4 b1 with
  | none => none
  | some (frameBytes, b2) =>
  match readBytesN 4 b2 with
  | none => none
  | some (txB, b3) =>
  match readBytesN 4 b3 with
  | none => none
  | some (tyB, b4) =>
  match readBytesN 4 b4 with
  | none => none
  | some (tzB, b5) =>
  match readBytesN 4 b5 with
  | none => none
  | some (rxB, b6) =>
  match readBytesN 4 b6 with
  | none => none
  | some (ryB, b7) =>
  match readBytesN 4 b7 with
  | none => none
  | some (rzB, b8) =>
  match readBytesN 4 b8 with
  | none => none
  | some (rwB, b9) =>
  match readBytesN 64 b9 with
  | none => none
  | some (interp, b10) =>
    some ((nameBytes,
      { frame_index := readU32LE frameBytes
        translation := ⟨fo.decodeF32 (quadOf txB), fo.decodeF32 (quadOf tyB),
          -(fo.decodeF32 (quadOf tzB))⟩
        orientation := fo.qnormalize ⟨fo.decodeF32 (quadOf rxB), fo.decodeF32 (quadOf ryB),
          -(fo.decodeF32 (quadOf rzB)), -(fo.decodeF32 (quadOf rwB))⟩
        interpolation_x := (interp.getD 0 0, interp.getD 4 0, interp.getD 8 0, interp.getD 12 0)
        interpolation_y := (interp.getD 1 0, interp.getD 5 0, interp.getD 9 0, interp.getD 13 0)
        interpolation_z := (interp.getD 2 0, interp.getD 6 0, interp.getD 10 0, interp.getD 14 0)
        interpolation_r := (interp.getD 3 0, interp.getD 7 0, interp.getD 11 0, interp.getD 15 0)
        is_physics_simulation_enabled := true }), b10)

theorem readBytesN_pos (n : Nat) (b : List Nat) (h : n ≤ b.length) :
    readBytesN n b = some (b.take n, b.drop n) := by
  simp [readBytesN, h]

theorem getD_take : ∀ (l : List Nat) (n i : Nat), i < n → (l.take n).getD i 0 = l.getD i 0
  | [], _, _, _ => by simp
  | _ :: _, 0, _, h => by omega
  | _ :: _, _ + 1, 0, _ => by simp [List.getD]
  | a :: l, n + 1, i + 1, h => by
    simp only [List.take_succ_cons, List.getD_cons_succ]
    exact getD_take l n i (by omega)

theorem quadOf_take4 (l : List Nat) : quadOf (l.take 4) = quadOf l := by
  simp [quadOf, getD_take l 4 0 (by omega), getD_take l 4 1 (by omega),
    getD_take l 4 2 (by omega), getD_take l 4 3 (by omega)]

theorem readU32LE_take4 (l : List Nat) : readU32LE (l.take 4) = readU32LE l := by
  simp [readU32LE, getD_take l 4 0 (by omega), getD_take l 4 1 (by omega),
    getD_take l 4 2 (by omega), getD_take l 4 3 (by omega)]

/-- Explicit form of a successful bone-keyframe parse: the record is
built from fixed offsets of the 111-byte record. -/
theorem readBoneKeyframe_eq (fo : FloatOps) (b : List Nat) (h : 111 ≤ b.length) :
    readBoneKeyframe fo b =
      some ((b.take 15,
        { frame_index := readU32LE (b.drop 15)
          translation := ⟨fo.decodeF32 (quadOf (b.drop 19)), fo.decodeF32 (quadOf (b.drop 23)),
            -(fo.decodeF32 (quadOf (b.drop 27)))⟩
          orientation := fo.qnormalize ⟨fo.decodeF32 (quadOf (b.drop 31)),
            fo.decodeF32 (quadOf (b.drop 35)),
            -(fo.decodeF32 (quadOf (b.drop 39))), -(fo.decodeF32 (quadOf (b.drop 43)))⟩
          interpolation_x := ((b.drop 47).getD 0 0, (b.drop 47).getD 4 0,
            (b.drop 47).getD 8 0, (b.drop 47).getD 12 0)
          interpolation_y := ((b.drop 47).getD 1 0, (b.drop 47).getD 5 0,
            (b.drop 47).getD 9 0, (b.drop 47).getD 13 0)
          interpolation_z := ((b.drop 47).getD 2 0, (b.drop 47).getD 6 0,
            (b.drop 47).getD 10 0, (b.drop 47).getD 14 0)
          interpolation_r := ((b.drop 47).getD 3 0, (b.drop 47).getD 7 0,
            (b.drop 47).getD 11 0, (b.drop 47).getD 15 0)
          is_physics_simulation_enabled := true }), b.drop 111) := by
  unfold readBoneKeyframe
  rw [readBytesN_pos 15 b (by omega)]
  norm_num [List.drop_drop]
  rw [readBytesN_pos 4 (b.drop 15) (by simp [List.length_drop]; omega)]
  norm_num [List.drop_drop]
  rw [readBytesN_pos 4 (b.drop 19) (by simp [List.length_drop]; omega)]
  norm_num [List.drop_drop]
  rw [readBytesN_pos 4 (b.drop 23) (by simp [List.length_drop]; omega)]
  norm_num [List.drop_drop]
  rw [readBytesN_pos 4 (b.drop 27) (by simp [List.length_drop]; omega)]
  norm_num [List.drop_drop]
  rw [readBytesN_pos 4 (b.drop 31) (by simp [List.length_drop]; omega)]
  norm_num [List.drop_drop]
  rw [readBytesN_pos 4 (b.drop 35) (by simp [List.length_drop]; omega)]
  norm_num [List.drop_drop]
  rw [readBytesN_pos 4 (b.drop 39) (by simp [List.length_drop]; omega)]
  norm_num [List.drop_drop]
  rw [readBytesN_pos 4 (b.drop 43) (by simp [List.length_drop]; omega)]
  norm_num [List.drop_drop]
  rw [readBytesN_pos 64 (b.drop 47) (by simp [List.length_drop]; omega)]
  norm_num [List.drop_drop]
  simp [quadOf_take4, readU32LE_take4, getD_take]

theorem readBytesN_neg (n : Nat) (b : List Nat) (h : b.length < n) :
    readBytesN n b = none := by
  simp only [readBytesN, ite_eq_right_iff]
  omega

/-- A record needs 111 bytes; shorter input makes the parse fail. -/
theorem readBoneKeyframe_short (fo : FloatOps) (b : List Nat) (hlen : b.length < 111) :
    readBoneKeyframe fo b = none := by
  unfold readBoneKeyframe
  by_cases h1 : 15 ≤ b.length
  case neg => rw [readBytesN_neg 15 b (by omega)]
  case pos =>
  rw [readBytesN_pos 15 b h1]
  norm_num [List.drop_drop]
  by_cases h2 : 4 ≤ b.length - 15
  case neg => rw [readBytesN_neg 4 (b.drop 15) (by simp [List.length_drop]; omega)]
  case pos =>
  rw [readBytesN_pos 4 (b.drop 15) (by simp [List.length_drop]; omega)]
  norm_num [List.drop_drop]
  by_cases h3 : 4 ≤ b.length - 19
  case neg => rw [readBytesN_neg 4 (b.drop 19) (by simp [List.length_drop]; omega)]
  case pos =>
  rw [readBytesN_pos 4 (b.drop 19) (by simp [List.length_drop]; omega)]
  norm_num [List.drop_drop]
  by_cases h4 : 4 ≤ b.length - 23
  case neg => rw [readBytesN_neg 4 (b.drop 23) (by simp [List.length_drop]; omega)]
  case pos =>
  rw [readBytesN_pos 4 (b.drop 23) (by simp [List.length_drop]; omega)]
  norm_num [List.drop_drop]
  by_cases h5 : 4 ≤ b.length - 27
  case neg => rw [readBytesN_neg 4 (b.drop 27) (by simp [List.length_drop]; omega)]
  case pos =>
  rw [readBytesN_pos 4 (b.drop 27) (by simp [List.length_drop]; omega)]
  norm_num [List.drop_drop]
  by_cases h6 : 4 ≤ b.length - 31
  case neg => rw [readBytesN_neg 4 (b.drop 31) (by simp [List.length_drop]; omega)]
  case pos =>
  rw [readBytesN_pos 4 (b.drop 31) (by simp [List.length_drop]; omega)]
  norm_num [List.drop_drop]
  by_cases h7 : 4 ≤ b.length - 35
  case neg => rw [readBytesN_neg 4 (b.drop 35) (by simp [List.length_drop]; omega)]
  case pos =>
  rw [readBytesN_pos 4 (b.drop 35) (by simp [List.length_drop]; omega)]
  norm_num [List.drop_drop]
  by_cases h8 : 4 ≤ b.length - 39
  case neg => rw [readBytesN_neg 4 (b.drop 39) (by simp [List.length_drop]; omega)]
  case pos =>
  rw [readBytesN_pos 4 (b.drop 39) (by simp [List.length_drop]; omega)]
  norm_num [List.drop_drop]
  by_cases h9 : 4 ≤ b.length - 43
  case neg => rw [readBytesN_neg 4 (b.drop 43) (by simp [List.length_drop]; omega)]
  case pos =>
  rw [readBytesN_pos 4 (b.drop 43) (by simp [List.length_drop]; omega)]
  norm_num [List.drop_drop]
  rw [readBytesN_neg 64 (b.drop 47) (by simp [List.length_drop]; omega)]

/-- C8: the 64-byte interpolation table splits column-major per axis
(`interp_x = [t0, t4, t8, t12]`, `interp_y = [t1, t5, t9, t13]`,
`interp_z = [t2, t6, t10, t14]`, `interp_r = [t3, t7, t11, t15]`), and the
stored engine values are the translation `(tx, ty, -tz)` and the
normalized quaternion built from `(rx, ry, -rz, -rw)`. -/
theorem C8_read_bone_keyframe_layout (fo : FloatOps) (b : List Nat) (h : 111 ≤ b.length) :
    ∃ name kf rest, readBoneKeyframe fo b = some ((name, kf), rest) ∧
      kf.interpolation_x = ((b.drop 47).getD 0 0, (b.drop 47).getD 4 0,
        (b.drop 47).getD 8 0, (b.drop 47).getD 12 0) ∧
      kf.interpolation_y = ((b.drop 47).getD 1 0, (b.drop 47).getD 5 0,
        (b.drop 47).getD 9 0, (b.drop 47).getD 13 0) ∧
      kf.interpolation_z = ((b.drop 47).getD 2 0, (b.drop 47).getD 6 0,
        (b.drop 47).getD 10 0, (b.drop 47).getD 14 0) ∧
      kf.interpolation_r = ((b.drop 47).getD 3 0, (b.drop 47).getD 7 0,
        (b.drop 47).getD 11 0, (b.drop 47).getD 15 0) ∧
      kf.translation = ⟨fo.decodeF32 (quadOf (b.drop 19)), fo.decodeF32 (quadOf (b.drop 23)),
        -(fo.decodeF32 (quadOf (b.drop 27)))⟩ ∧
      kf.orientation = fo.qnormalize ⟨fo.decodeF32 (quadOf (b.drop 31)),
        fo.decodeF32 (quadOf (b.drop 35)),
        -(fo.decodeF32 (quadOf (b.drop 39))), -(fo.decodeF32 (quadOf (b.drop 43)))⟩ := by
  exact ⟨b.take 15, _, b.drop 111, readBoneKeyframe_eq fo b h,
    rfl, rfl, rfl, rfl, rfl, rfl⟩

theorem C8_read_bone_keyframe_layout_witness :
    ∃ name kf rest,
      readBoneKeyframe floatOps0 (List.replicate 111 7) = some ((name, kf), rest) ∧
      kf.interpolation_x = (((List.replicate 111 7).drop 47).getD 0 0,
        ((List.replicate 111 7).drop 47).getD 4 0,
        ((List.replicate 111 7).drop 47).getD 8 0,
        ((List.replicate 111 7).drop 47).getD 12 0) ∧
      kf.interpolation_y = (((List.replicate 111 7).drop 47).getD 1 0,
        ((List.replicate 111 7).drop 47).getD 5 0,
        ((List.replicate 111 7).drop 47).getD 9 0,
        ((List.replicate 111 7).drop 47).getD 13 0) ∧
      kf.interpolation_z = (((List.replicate 111 7).drop 47).getD 2 0,
        ((List.replicate 111 7).drop 47).getD 6 0,
        ((List.replicate 111 7).drop 47).getD 10 0,
        ((List.replicate 111 7).drop 47).getD 14 0) ∧
      kf.interpolation_r = (((List.replicate 111 7).drop 47).getD 3 0,
        ((List.replicate 111 7).drop 47).getD 7 0,
        ((List.replicate 111 7).drop 47).getD 11 0,
        ((List.replicate 111 7).drop 47).getD 15 0) ∧
      kf.translation = ⟨floatOps0.decodeF32 (quadOf ((List.replicate 111 7).drop 19)),
        floatOps0.decodeF32 (quadOf ((List.replicate 111 7).drop 23)),
        -(floatOps0.decodeF32 (quadOf ((List.replicate 111 7).drop 27)))⟩ ∧
      kf.orientation = floatOps0.qnormalize
        ⟨floatOps0.decodeF32 (quadOf ((List.replicate 111 7).drop 31)),
         floatOps0.decodeF32 (quadOf ((List.replicate 111 7).drop 35)),
         -(floatOps0.decodeF32 (quadOf ((List.replicate 111 7).drop 39))),
         -(floatOps0.decodeF32 (quadOf ((List.replicate 111 7).drop 43)))⟩ :=
  C8_read_bone_keyframe_layout floatOps0 (List.replicate 111 7) (by simp)

theorem searchClosest_fst_mem :
    ∀ (track : BoneMotionTrack) (f : Nat) (acc p n : Option BoneKeyframe),
      searchClosestKeyframes track f acc = (p, n) →
      ∀ kf, p = some kf → kf ∈ track ∨ acc = some kf
  | [], _, acc, p, n, h, kf, hp => by
    simp [searchClosestKeyframes] at h
    exact Or.inr (h.1 ▸ hp ▸ rfl)
  | k :: rest, f, acc, p, n, h, kf, hp => by
    simp only [searchClosestKeyframes] at h
    by_cases hle : k.frame_index ≤ f
    · rw [if_pos hle] at h
      rcases searchClosest_fst_mem rest f (some k) p n h kf hp with hmem | hacc
      · exact Or.inl (List.mem_cons_of_mem k hmem)
      · exact Or.inl (by simp at hacc; simp [hacc])
    · rw [if_neg hle] at h
      obtain ⟨h1, h2⟩ := Prod.mk.injEq .. ▸ h
      exact Or.inr (h1.trans hp)

theorem searchClosest_snd_mem :
    ∀ (track : BoneMotionTrack) (f : Nat) (acc p n : Option BoneKeyframe),
      searchClosestKeyframes track f acc = (p, n) →
      ∀ kf, n = some kf → kf ∈ track
  | [], _, acc, p, n, h, kf, hn => by
    simp [searchClosestKeyframes] at h
    rw [← h.2] at hn
    cases hn
  | k :: rest, f, acc, p, n, h, kf, hn => by
    simp only [searchClosestKeyframes] at h
    by_cases hle : k.frame_index ≤ f
    · rw [if_pos hle] at h
      exact List.mem_cons_of_mem k (searchClosest_snd_mem rest f (some k) p n h kf hn)
    · rw [if_neg hle] at h
      obtain ⟨h1, h2⟩ := Prod.mk.injEq .. ▸ h
      have : k = kf := by
        have := h2.symm ▸ hn
        simpa using this
      simp [this]

/-- C10: every keyframe the VMD loader produces has `physics_enabled`
set to `true`, so a track built solely from a parsed VMD file never
takes the physics-handoff branch: `seek` always returns
`disable_physics = false` and `local_transform_mix = None`. -/
theorem C10_loader_never_hands_off :
    (∀ (fo : FloatOps) (b name : List Nat) (kf : BoneKeyframe) (rest : List Nat),
      readBoneKeyframe fo b = some ((name, kf), rest) →
      kf.is_physics_simulation_enabled = true) ∧
    (∀ (fo : FloatOps) (track : BoneMotionTrack) (f : Nat),
      (∀ kf ∈ track, kf.is_physics_simulation_enabled = true) →
      (seek fo track f).disable_physics = false ∧
      (seek fo track f).local_transform_mix = none) := by
  constructor
  · intro fo b name kf rest h
    rcases Nat.lt_or_ge b.length 111 with hl | hl
    · rw [readBoneKeyframe_short fo b hl] at h
      cases h
    · rw [readBoneKeyframe_eq fo b hl] at h
      injection h with h
      injection h with h1 h2
      injection h1 with hname hkf
      rw [← hkf]
  · intro fo track f hall
    unfold seek
    cases hf : findKeyframe track f with
    | some kf => simp [frameOfKeyframe]
    | none =>
      rcases hs : searchClosestKeyframes track f none with ⟨p, n⟩
      cases p with
      | none =>
        cases n with
        | none => simp [boneFrameDefault]
        | some next => simp
      | some prev =>
        cases n with
        | none => simp
        | some next =>
          have hprev : prev ∈ track := by
            rcases searchClosest_fst_mem track f none (some prev) (some next) hs prev rfl
              with hm | hacc
            · exact hm
            · cases hacc
          have hnext : next ∈ track :=
            searchClosest_snd_mem track f none (some prev) (some next) hs next rfl
          have h1 := hall prev hprev
          have h2 := hall next hnext
          simp [h1, h2]

/-- A track whose keyframes all have physics enabled. -/
def allPhysTrack : BoneMotionTrack :=
  [⟨0, ⟨0, 0, 0⟩, Q4.one, (20, 20, 107, 107), (20, 20, 107, 107), (20, 20, 107, 107),
    (20, 20, 107, 107), true⟩,
   ⟨10, ⟨1, 2, 3⟩, ⟨0, 0, 0, 1⟩, (20, 20, 107, 107), (20, 20, 107, 107), (20, 20, 107, 107),
    (20, 20, 107, 107), true⟩]

/-- The keyframe the loader produces from 111 zero bytes under `floatOps0`. -/
def kfZero : BoneKeyframe :=
  ⟨0, ⟨0, 0, 0⟩, ⟨0, 0, 0, 0⟩, (0, 0, 0, 0), (0, 0, 0, 0), (0, 0, 0, 0), (0, 0, 0, 0), true⟩

theorem C10_loader_never_hands_off_witness :
    kfZero.is_physics_simulation_enabled = true ∧
    ((seek floatOps0 allPhysTrack 5).disable_physics = false ∧
     (seek floatOps0 allPhysTrack 5).local_transform_mix = none) :=
  ⟨C10_loader_never_hands_off.1 floatOps0 (List.replicate 111 0) (List.replicate 15 0)
      kfZero (List.replicate 0 0) (by decide),
   C10_loader_never_hands_off.2 floatOps0 allPhysTrack 5 (by decide)⟩

-- ===========================================================================
-- IK solver (src/rust_engine/src/skeleton/ik_solver.rs)
-- ===========================================================================

/-- Abstract model of the mutable state seen by `IkSolver::solve`:
`α` is the vector of the links' `ik_rotate` values, `β` the rest of the
skeleton state (transforms, chain states). `step` is one call to
`solve_iteration` (it receives the iteration counter), `dist` measures
`(target.world_pos - ik_bone.world_pos).length()` on the current state,
and `recompute` is the `compute_local_transform` plus
`update_global_transform_recursive` pass performed after rotations are
written back. -/
structure IkModel (α β : Type) where
  step : Nat → α × β → α × β
  dist : α × β → ℚ
  recompute : α → β → β

/-- The outer-loop bookkeeping: current state, `best_distance`
(`none` plays `f32::MAX` before the first measurement) and the
`best_ik_rotate` snapshot held in the chain states. -/
structure IkLoopState (α β : Type) where
  s : α × β
  best : Option ℚ
  snap : α

/-- The `distance < best_distance` comparison (with the `f32::MAX`
initial value, any measured distance improves). -/
def ltBestD (d : ℚ) : Option ℚ → Bool
  | none => true
  | some b => decide (d < b)

/-- Embedding of the outer loop of `IkSolver::solve`: run one
`solve_iteration`, measure the distance, record and snapshot when it
improves, otherwise restore every link's `ik_rotate` from the snapshot,
recompute the transforms, and exit. -/
def ikSolveLoop (m : IkModel α β) : Nat → Nat → IkLoopState α β → IkLoopState α β
  | 0, _, st => st
  | fuel + 1, i, st =>
    let s2 := m.step i st.s
    let d := m.dist s2
    if ltBestD d st.best then
      ikSolveLoop m fuel (i + 1) ⟨s2, some d, s2.1⟩
    else
      ⟨(st.snap, m.recompute st.snap s2.2), st.best, st.snap⟩

/-- Embedding of `IkSolver::solve` after the setup phase: all links start with
`ik_rotate` identity (already stored in `s0`) and the chain-state
snapshots start at their default. -/
def ikSolve (m : IkModel α β) (iters : Nat) (s0 : α × β) : IkLoopState α β :=
  ikSolveLoop m iters 0 ⟨s0, none, s0.1⟩

/-- The pure trajectory of states produced by successive
`solve_iteration` calls (no rollback happens before the loop exits). -/
def ikTraj (m : IkModel α β) (s0 : α × β) : Nat → α × β
  | 0 => s0
  | i + 1 => m.step i (ikTraj m s0 i)

/-- The distance measured right after iteration `i`. -/
def ikMeas (m : IkModel α β) (s0 : α × β) (i : Nat) : ℚ :=
  m.dist (ikTraj m s0 (i + 1))

theorem ikSolveLoop_spec (m : IkModel α β) (s0 : α × β) :
    ∀ (fuel k : Nat),
      ∃ J, k ≤ J ∧ J ≤ k + fuel ∧
        (ikSolveLoop m fuel (k + 1)
            ⟨ikTraj m s0 (k + 1), some (ikMeas m s0 k), (ikTraj m s0 (k + 1)).1⟩).snap
          = (ikTraj m s0 (J + 1)).1 ∧
        (ikSolveLoop m fuel (k + 1)
            ⟨ikTraj m s0 (k + 1), some (ikMeas m s0 k), (ikTraj m s0 (k + 1)).1⟩).s.1
          = (ikTraj m s0 (J + 1)).1 ∧
        (ikSolveLoop m fuel (k + 1)
            ⟨ikTraj m s0 (k + 1), some (ikMeas m s0 k), (ikTraj m s0 (k + 1)).1⟩).best
          = some (ikMeas m s0 J) ∧
        (∀ i, k < i → i ≤ J → ikMeas m s0 i < ikMeas m s0 (i - 1)) ∧
        (J < k + fuel → ikMeas m s0 J ≤ ikMeas m s0 (J + 1)) := by
  intro fuel
  induction fuel with
  | zero =>
    intro k
    refine ⟨k, le_refl k, by omega, rfl, rfl, rfl, ?_, ?_⟩
    · intro i h1 h2; omega
    · intro h; omega
  | succ fuel ih =>
    intro k
    have hstep : m.step (k + 1) (ikTraj m s0 (k + 1)) = ikTraj m s0 (k + 2) := rfl
    by_cases hlt : ikMeas m s0 (k + 1) < ikMeas m s0 k
    · obtain ⟨J, hJ1, hJ2, hsnap, hs, hbest, hchain, hlast⟩ := ih (k + 1)
      refine ⟨J, by omega, by omega, ?_, ?_, ?_, ?_, ?_⟩
      · rw [ikSolveLoop]
        simp only [hstep, ltBestD]
        rw [if_pos (by simpa [ikMeas] using hlt)]
        exact hsnap
      · rw [ikSolveLoop]
        simp only [hstep, ltBestD]
        rw [if_pos (by simpa [ikMeas] using hlt)]
        exact hs
      · rw [ikSolveLoop]
        simp only [hstep, ltBestD]
        rw [if_pos (by simpa [ikMeas] using hlt)]
        exact hbest
      · intro i hi1 hi2
        rcases Nat.lt_or_ge (k + 1) i with hki | hki
        · exact hchain i hki hi2
        · have : i = k + 1 := by omega
          subst this
          simpa using hlt
      · intro h
        exact hlast (by omega)
    · refine ⟨k, le_refl k, by omega, ?_, ?_, ?_, ?_, ?_⟩
      · rw [ikSolveLoop]
        simp only [hstep, ltBestD]
        rw [if_neg (by simpa [ikMeas] using hlt)]
      · rw [ikSolveLoop]
        simp only [hstep, ltBestD]
        rw [if_neg (by simpa [ikMeas] using hlt)]
      · rw [ikSolveLoop]
        simp only [hstep, ltBestD]
        rw [if_neg (by simpa [ikMeas] using hlt)]
      · intro i h1 h2; omega
      · intro _
        exact le_of_not_lt hlt

theorem ikMeas_chain_le (m : IkModel α β) (s0 : α × β) (J : Nat)
    (hchain : ∀ i, 0 < i → i ≤ J → ikMeas m s0 i < ikMeas m s0 (i - 1)) :
    ∀ i, i ≤ J → ikMeas m s0 J ≤ ikMeas m s0 i := by
  have aux : ∀ d i, i + d ≤ J → ikMeas m s0 (i + d) ≤ ikMeas m s0 i := by
    intro d
    induction d with
    | zero => intro i _; simp
    | succ d ihd =>
      intro i h
      have h1 : ikMeas m s0 (i + d + 1) < ikMeas m s0 (i + d) := by
        have := hchain (i + d + 1) (by omega) (by omega)
        simpa using this
      have h2 := ihd i (by omega)
      calc ikMeas m s0 (i + (d + 1)) = ikMeas m s0 (i + d + 1) := by ring_nf
        _ ≤ ikMeas m s0 (i + d) := le_of_lt h1
        _ ≤ ikMeas m s0 i := h2
  intro i hi
  have := aux (J - i) i (by omega)
  have heq : i + (J - i) = J := by omega
  rw [heq] at this
  exact this

/-- C3: when `solve` returns, every link's `ik_rotate` equals the
snapshot recorded at the iteration whose measured distance is the
smallest: there is an iteration `J` among those executed such that the
final rotations and the stored snapshot are the state right after
iteration `J`, the recorded best distance is `J`'s, the measured
distances strictly improved up to `J`, and `J`'s distance is minimal
among every distance the loop measured. -/
theorem C3_ik_solve_best_rollback (m : IkModel α β) (s0 : α × β) (N : Nat) (hN : 1 ≤ N) :
    ∃ J, J < N ∧
      (ikSolve m N s0).s.1 = (ikTraj m s0 (J + 1)).1 ∧
      (ikSolve m N s0).snap = (ikTraj m s0 (J + 1)).1 ∧
      (ikSolve m N s0).best = some (ikMeas m s0 J) ∧
      (∀ i, 0 < i → i ≤ J → ikMeas m s0 i < ikMeas m s0 (i - 1)) ∧
      (∀ i, i ≤ J + 1 → i < N → ikMeas m s0 J ≤ ikMeas m s0 i) := by
  obtain ⟨n, rfl⟩ : ∃ n, N = n + 1 := ⟨N - 1, by omega⟩
  have hfirst : ikSolve m (n + 1) s0 =
      ikSolveLoop m n 1 ⟨ikTraj m s0 1, some (ikMeas m s0 0), (ikTraj m s0 1).1⟩ := by
    unfold ikSolve
    rw [ikSolveLoop]
    simp only [ltBestD, if_pos]
    rfl
  obtain ⟨J, hJ1, hJ2, hsnap, hs, hbest, hchain, hlast⟩ := ikSolveLoop_spec m s0 n 0
  refine ⟨J, by omega, ?_, ?_, ?_, ?_, ?_⟩
  · rw [hfirst]; exact hs
  · rw [hfirst]; exact hsnap
  · rw [hfirst]; exact hbest
  · intro i h1 h2; exact hchain i h1 h2
  · intro i hi1 hi2
    rcases Nat.lt_or_ge J i with hJi | hJi
    · have : i = J + 1 := by omega
      subst this
      exact hlast (by omega)
    · exact ikMeas_chain_le m s0 J (fun i h1 h2 => hchain i h1 h2) i hJi

/-- A concrete one-dimensional instantiation: the "rotation" advances by
one per iteration and the distance is `(r - 2)^2`, so iterations 0 and 1
improve and iteration 2 regresses. -/
def ikModel0 : IkModel ℚ Unit :=
  ⟨fun _ s => (s.1 + 1, ()), fun s => (s.1 - 2) * (s.1 - 2), fun _ _ => ()⟩

theorem C3_ik_solve_best_rollback_witness :
    ∃ J, J < 5 ∧
      (ikSolve ikModel0 5 (0, ())).s.1 = (ikTraj ikModel0 (0, ()) (J + 1)).1 ∧
      (ikSolve ikModel0 5 (0, ())).snap = (ikTraj ikModel0 (0, ()) (J + 1)).1 ∧
      (ikSolve ikModel0 5 (0, ())).best = some (ikMeas ikModel0 (0, ()) J) ∧
      (∀ i, 0 < i → i ≤ J → ikMeas ikModel0 (0, ()) i < ikMeas ikModel0 (0, ()) (i - 1)) ∧
      (∀ i, i ≤ J + 1 → i < 5 → ikMeas ikModel0 (0, ()) J ≤ ikMeas ikModel0 (0, ()) i) :=
  C3_ik_solve_best_rollback ikModel0 (0, ()) 5 (by decide)

-- ===========================================================================
-- Plane (hinge) mode of the IK solver
-- ===========================================================================

/-- Rust `f32::clamp` (valid for `lo ≤ hi`). -/
def rclamp (x lo hi : ℚ) : ℚ := if x < lo then lo else if x > hi then hi else x

theorem rclamp_mem (x lo hi : ℚ) (h : lo ≤ hi) :
    lo ≤ rclamp x lo hi ∧ rclamp x lo hi ≤ hi := by
  unfold rclamp
  split
  · exact ⟨le_refl lo, h⟩
  · split
    · exact ⟨h, le_refl hi⟩
    · constructor <;> [exact le_of_not_lt (by assumption); exact le_of_not_lt (by assumption)]

/-- Embedding of the accumulated-angle update of `IkSolver::solve_plane`:
`prevAngle` is the stored `plane_mode_angle`, `angle` the geometric step
angle, `choosePos` the outcome of `dot_pos > dot_neg`, and
`lmin`/`lmax` the limit range on the hinge axis. The result is the value
stored back into `plane_mode_angle`. -/
def solvePlaneCandidate (iteration : Nat) (prevAngle angle : ℚ) (choosePos : Bool)
    (lmin lmax : ℚ) : ℚ :=
  let newAngle := if choosePos then prevAngle + angle else prevAngle - angle
  if iteration = 0 then
    if newAngle < lmin ∨ newAngle > lmax then
      if -newAngle > lmin ∧ -newAngle < lmax then -newAngle
      else
        let half := (lmin + lmax) * (1 / 2)
        if |half - newAngle| > |half + newAngle| then -newAngle else newAngle
    else newAngle
  else newAngle

/-- The value stored back into `plane_mode_angle`: the candidate above,
clamped to the limit range (the `new_angle.clamp(limit_min, limit_max)`
line). -/
def solvePlaneNewAngle (iteration : Nat) (prevAngle angle : ℚ) (choosePos : Bool)
    (lmin lmax : ℚ) : ℚ :=
  rclamp (solvePlaneCandidate iteration prevAngle angle choosePos lmin lmax) lmin lmax

/-- C4: after every `solve_plane` update the stored hinge angle lies in
`[limit_min, limit_max]` on the hinge axis; in particular with
`limit_max = 0` (the hinge link of spec §8 scenario 6, limits
`(-π, 0)`) the stored angle is never positive. -/
theorem C4_plane_mode_angle_in_limits (iteration : Nat) (prevAngle angle : ℚ)
    (choosePos : Bool) (lmin lmax : ℚ) (h : lmin ≤ lmax) :
    lmin ≤ solvePlaneNewAngle iteration prevAngle angle choosePos lmin lmax ∧
    solvePlaneNewAngle iteration prevAngle angle choosePos lmin lmax ≤ lmax ∧
    (lmax = 0 → solvePlaneNewAngle iteration prevAngle angle choosePos lmin lmax ≤ 0) := by
  unfold solvePlaneNewAngle
  refine ⟨(rclamp_mem _ lmin lmax h).1, (rclamp_mem _ lmin lmax h).2, ?_⟩
  intro h0
  exact h0 ▸ (rclamp_mem (solvePlaneCandidate iteration prevAngle angle choosePos lmin lmax)
    lmin lmax h).2

theorem C4_plane_mode_angle_in_limits_witness :
    -4 ≤ solvePlaneNewAngle 0 0 1 true (-4) 0 ∧
    solvePlaneNewAngle 0 0 1 true (-4) 0 ≤ 0 ∧
    (0 = (0 : ℚ) → solvePlaneNewAngle 0 0 1 true (-4) 0 ≤ 0) :=
  C4_plane_mode_angle_in_limits 0 0 1 true (-4) 0 (by norm_num)

-- ===========================================================================
-- Morph accumulator (src/rust_engine/src/morph/manager.rs)
-- ===========================================================================

instance : Sub V3 := ⟨fun a b => ⟨a.x - b.x, a.y - b.y, a.z - b.z⟩⟩

instance : Sub V4 := ⟨fun a b => ⟨a.x - b.x, a.y - b.y, a.z - b.z, a.w - b.w⟩⟩

theorem v3_sub_def (a b : V3) : a - b = ⟨a.x - b.x, a.y - b.y, a.z - b.z⟩ := rfl

theorem v4_add_def (a b : V4) : a + b = ⟨a.x + b.x, a.y + b.y, a.z + b.z, a.w + b.w⟩ := rfl

theorem v4_sub_def (a b : V4) : a - b = ⟨a.x - b.x, a.y - b.y, a.z - b.z, a.w - b.w⟩ := rfl

theorem v2_add_def (a b : V2) : a + b = ⟨a.x + b.x, a.y + b.y⟩ := rfl

/-- Componentwise product (glam `Mul` of vectors). -/
def V3.mulv (a b : V3) : V3 := ⟨a.x * b.x, a.y * b.y, a.z * b.z⟩

/-- Componentwise product (glam `Mul` of vectors). -/
def V4.mulv (a b : V4) : V4 := ⟨a.x * b.x, a.y * b.y, a.z * b.z, a.w * b.w⟩

/-- The `Vec3::ONE` constant. -/
def V3.one : V3 := ⟨1, 1, 1⟩

/-- The `Vec4::ONE` constant. -/
def V4.one : V4 := ⟨1, 1, 1, 1⟩

/-- The `Vec2::ZERO` constant. -/
def V2.zero : V2 := ⟨0, 0⟩

/-- The `MaterialMorphOffset` record. -/
structure MaterialMorphOffset where
  material_index : Int
  operation : Nat
  diffuse : V4
  specular : V3
  specular_strength : ℚ
  ambient : V3
  edge_color : V4
  edge_size : ℚ
  texture_tint : V4
  environment_tint : V4
  toon_tint : V4
  deriving DecidableEq, Repr

/-- The per-material accumulated `MaterialMorphResult`. -/
structure MaterialMorphResult where
  diffuse : V4
  specular : V3
  specular_strength : ℚ
  ambient : V3
  edge_color : V4
  edge_size : ℚ
  texture_tint : V4
  environment_tint : V4
  toon_tint : V4
  deriving DecidableEq, Repr

/-- Embedding of `MaterialMorphResult::new`: the neutral identity. -/
def materialMorphNew : MaterialMorphResult :=
  { diffuse := ⟨1, 1, 1, 1⟩
    specular := ⟨1, 1, 1⟩
    specular_strength := 1
    ambient := ⟨1, 1, 1⟩
    edge_color := ⟨0, 0, 0, 1⟩
    edge_size := 1
    texture_tint := ⟨1, 1, 1, 1⟩
    environment_tint := ⟨1, 1, 1, 1⟩
    toon_tint := ⟨1, 1, 1, 1⟩ }

/-- The closures of `apply_multiply`: `base * (ONE + (target - ONE) * w)`. -/
def lerpVec4 (base target : V4) (w : ℚ) : V4 :=
  base.mulv (V4.one + (target - V4.one).smul w)

/-- The `Vec3` version of the same closure. -/
def lerpVec3 (base target : V3) (w : ℚ) : V3 :=
  base.mulv (V3.one + (target - V3.one).smul w)

/-- Embedding of `MaterialMorphResult::apply_multiply` (operation 0). -/
def applyMultiply (r : MaterialMorphResult) (off : MaterialMorphOffset) (w : ℚ) :
    MaterialMorphResult :=
  { diffuse := lerpVec4 r.diffuse off.diffuse w
    specular := lerpVec3 r.specular off.specular w
    specular_strength := r.specular_strength * (1 + (off.specular_strength - 1) * w)
    ambient := lerpVec3 r.ambient off.ambient w
    edge_color := lerpVec4 r.edge_color off.edge_color w
    edge_size := r.edge_size * (1 + (off.edge_size - 1) * w)
    texture_tint := lerpVec4 r.texture_tint off.texture_tint w
    environment_tint := lerpVec4 r.environment_tint off.environment_tint w
    toon_tint := lerpVec4 r.toon_tint off.toon_tint w }

/-- Embedding of `MaterialMorphResult::apply_additive` (operation 1). -/
def applyAdditive (r : MaterialMorphResult) (off : MaterialMorphOffset) (w : ℚ) :
    MaterialMorphResult :=
  { diffuse := r.diffuse + off.diffuse.smul w
    specular := r.specular + off.specular.smul w
    specular_strength := r.specular_strength + off.specular_strength * w
    ambient := r.ambient + off.ambient.smul w
    edge_color := r.edge_color + off.edge_color.smul w
    edge_size := r.edge_size + off.edge_size * w
    texture_tint := r.texture_tint + off.texture_tint.smul w
    environment_tint := r.environment_tint + off.environment_tint.smul w
    toon_tint := r.toon_tint + off.toon_tint.smul w }

/-- The per-result dispatch of `apply_material_morph_offsets`:
`operation == 0` multiplies, otherwise adds. -/
def applyMaterialOffsetToResult (r : MaterialMorphResult) (off : MaterialMorphOffset)
    (w : ℚ) : MaterialMorphResult :=
  if off.operation = 0 then applyMultiply r off w else applyAdditive r off w

/-- The neutral material offset with `edge_size = 2` and operation 0,
used by spec §8 scenario 5. -/
def edgeOffset2 : MaterialMorphOffset :=
  { material_index := 0
    operation := 0
    diffuse := V4.one
    specular := V3.one
    specular_strength := 1
    ambient := V3.one
    edge_color := ⟨0, 0, 0, 1⟩
    edge_size := 2
    texture_tint := V4.one
    environment_tint := V4.one
    toon_tint := V4.one }

/-- C6: operation 0 updates each property (each component) as
`base * (1 + (target - 1) * w)` and operation 1 as `base + target * w`;
concretely, from the neutral `edge_size = 1`, applying an offset with
`edge_size = 2`, operation 0 and `w = 1/2` yields `3/2`, and applying
the same offset again with `w = 1` yields `3`. -/
theorem C6_material_morph_operations (r : MaterialMorphResult)
    (off : MaterialMorphOffset) (w : ℚ) :
    (applyMultiply r off w =
      { diffuse := ⟨r.diffuse.x * (1 + (off.diffuse.x - 1) * w),
          r.diffuse.y * (1 + (off.diffuse.y - 1) * w),
          r.diffuse.z * (1 + (off.diffuse.z - 1) * w),
          r.diffuse.w * (1 + (off.diffuse.w - 1) * w)⟩
        specular := ⟨r.specular.x * (1 + (off.specular.x - 1) * w),
          r.specular.y * (1 + (off.specular.y - 1) * w),
          r.specular.z * (1 + (off.specular.z - 1) * w)⟩
        specular_strength := r.specular_strength * (1 + (off.specular_strength - 1) * w)
        ambient := ⟨r.ambient.x * (1 + (off.ambient.x - 1) * w),
          r.ambient.y * (1 + (off.ambient.y - 1) * w),
          r.ambient.z * (1 + (off.ambient.z - 1) * w)⟩
        edge_color := ⟨r.edge_color.x * (1 + (off.edge_color.x - 1) * w),
          r.edge_color.y * (1 + (off.edge_color.y - 1) * w),
          r.edge_color.z * (1 + (off.edge_color.z - 1) * w),
          r.edge_color.w * (1 + (off.edge_color.w - 1) * w)⟩
        edge_size := r.edge_size * (1 + (off.edge_size - 1) * w)
        texture_tint := ⟨r.texture_tint.x * (1 + (off.texture_tint.x - 1) * w),
          r.texture_tint.y * (1 + (off.texture_tint.y - 1) * w),
          r.texture_tint.z * (1 + (off.texture_tint.z - 1) * w),
          r.texture_tint.w * (1 + (off.texture_tint.w - 1) * w)⟩
        environment_tint := ⟨r.environment_tint.x * (1 + (off.environment_tint.x - 1) * w),
          r.environment_tint.y * (1 + (off.environment_tint.y - 1) * w),
          r.environment_tint.z * (1 + (off.environment_tint.z - 1) * w),
          r.environment_tint.w * (1 + (off.environment_tint.w - 1) * w)⟩
        toon_tint := ⟨r.toon_tint.x * (1 + (off.toon_tint.x - 1) * w),
          r.toon_tint.y * (1 + (off.toon_tint.y - 1) * w),
          r.toon_tint.z * (1 + (off.toon_tint.z - 1) * w),
          r.toon_tint.w * (1 + (off.toon_tint.w - 1) * w)⟩ }) ∧
    (applyAdditive r off w =
      { diffuse := ⟨r.diffuse.x + off.diffuse.x * w, r.diffuse.y + off.diffuse.y * w,
          r.diffuse.z + off.diffuse.z * w, r.diffuse.w + off.diffuse.w * w⟩
        specular := ⟨r.specular.x + off.specular.x * w, r.specular.y + off.specular.y * w,
          r.specular.z + off.specular.z * w⟩
        specular_strength := r.specular_strength + off.specular_strength * w
        ambient := ⟨r.ambient.x + off.ambient.x * w, r.ambient.y + off.ambient.y * w,
          r.ambient.z + off.ambient.z * w⟩
        edge_color := ⟨r.edge_color.x + off.edge_color.x * w, r.edge_color.y + off.edge_color.y * w,
          r.edge_color.z + off.edge_color.z * w, r.edge_color.w + off.edge_color.w * w⟩
        edge_size := r.edge_size + off.edge_size * w
        texture_tint := ⟨r.texture_tint.x + off.texture_tint.x * w,
          r.texture_tint.y + off.texture_tint.y * w,
          r.texture_tint.z + off.texture_tint.z * w,
          r.texture_tint.w + off.texture_tint.w * w⟩
        environment_tint := ⟨r.environment_tint.x + off.environment_tint.x * w,
          r.environment_tint.y + off.environment_tint.y * w,
          r.environment_tint.z + off.environment_tint.z * w,
          r.environment_tint.w + off.environment_tint.w * w⟩
        toon_tint := ⟨r.toon_tint.x + off.toon_tint.x * w, r.toon_tint.y + off.toon_tint.y * w,
          r.toon_tint.z + off.toon_tint.z * w, r.toon_tint.w + off.toon_tint.w * w⟩ }) ∧
    (off.operation = 0 →
      applyMaterialOffsetToResult r off w = applyMultiply r off w) ∧
    (off.operation = 1 →
      applyMaterialOffsetToResult r off w = applyAdditive r off w) ∧
    (applyMaterialOffsetToResult materialMorphNew edgeOffset2 (1/2)).edge_size = 3/2 ∧
    (applyMaterialOffsetToResult
      (applyMaterialOffsetToResult materialMorphNew edgeOffset2 (1/2))
      edgeOffset2 1).edge_size = 3 := by
  refine ⟨?_, ?_, ?_, ?_, ?_, ?_⟩
  · simp only [applyMultiply, lerpVec4, lerpVec3, V4.mulv, V3.mulv, V4.one, V3.one,
      V4.smul, V3.smul, v4_add_def, v4_sub_def, v3_add_def, v3_sub_def]
  · simp only [applyAdditive, V4.smul, V3.smul, v4_add_def, v3_add_def]
  · intro h0
    unfold applyMaterialOffsetToResult
    rw [if_pos h0]
  · intro h1
    unfold applyMaterialOffsetToResult
    rw [if_neg (by omega)]
  · norm_num [applyMaterialOffsetToResult, applyMultiply, materialMorphNew, edgeOffset2]
  · norm_num [applyMaterialOffsetToResult, applyMultiply, materialMorphNew, edgeOffset2]

theorem C6_material_morph_operations_witness :
    (applyMaterialOffsetToResult materialMorphNew edgeOffset2 (1/2)).edge_size = 3/2 ∧
    (edgeOffset2.operation = 0 →
      applyMaterialOffsetToResult materialMorphNew edgeOffset2 1 =
        applyMultiply materialMorphNew edgeOffset2 1) :=
  ⟨(C6_material_morph_operations materialMorphNew edgeOffset2 (1/2)).2.2.2.2.1,
   fun h0 => (C6_material_morph_operations materialMorphNew edgeOffset2 1).2.2.1 h0⟩

/-- The PMX morph types handled by the manager. -/
inductive MorphType
  | Vertex
  | Bone
  | Uv
  | AdditionalUv1
  | AdditionalUv2
  | AdditionalUv3
  | AdditionalUv4
  | Material
  | Group
  | Flip
  | Impulse
  deriving DecidableEq, Repr

/-- A vertex-morph offset. -/
structure VertexMorphOffset where
  vertex_index : Nat
  offset : V3
  deriving DecidableEq, Repr

/-- A bone-morph offset. -/
structure BoneMorphOffset where
  bone_index : Nat
  translation : V3
  rotation : Q4
  deriving DecidableEq, Repr

/-- A UV-morph offset (4-wide vector; only x,y are applied). -/
structure UvMorphOffset where
  vertex_index : Nat
  offset : V4
  deriving DecidableEq, Repr

/-- A group/flip sub-entry (`morph_index` already cast to `usize`). -/
structure GroupMorphOffset where
  morph_index : Nat
  influence : ℚ
  deriving DecidableEq, Repr

/-- A morph with its current weight and type-specific payloads. -/
structure Morph where
  morph_type : MorphType
  weight : ℚ
  vertex_offsets : List VertexMorphOffset
  bone_offsets : List BoneMorphOffset
  material_offsets : List MaterialMorphOffset
  uv_offsets : List UvMorphOffset
  group_offsets : List GroupMorphOffset
  deriving Repr

/-- The mutable buffers `apply_morphs` writes into: vertex positions,
per-bone `(animation_translate, animation_rotate)`, per-material
results, and per-vertex UV deltas. -/
structure MorphState where
  positions : List V3
  bones : List (V3 × Q4)
  material_morph_results : List MaterialMorphResult
  uv_morph_deltas : List V2
  deriving Repr

/-- Embedding of `apply_vertex_morph_static` (bounds-guarded `+=`). -/
def applyVertexMorphStatic (offsets : List VertexMorphOffset) (w : ℚ)
    (positions : List V3) : List V3 :=
  offsets.foldl (fun ps off =>
    if off.vertex_index < ps.length then
      ps.set off.vertex_index (ps.getD off.vertex_index V3.zero + off.offset.smul w)
    else ps) positions

/-- Embedding of `apply_bone_morph_static`: scale the translation by the
weight, build the MMD-convention quaternion
`normalize(x*w, y*w, z*w, 1 - (1 - w_q)*w)` and compose it. -/
def applyBoneMorphStatic (fo : FloatOps) (offsets : List BoneMorphOffset) (w : ℚ)
    (bones : List (V3 × Q4)) : List (V3 × Q4) :=
  offsets.foldl (fun bs off =>
    let translation := off.translation.smul w
    let rotation := fo.qnormalize ⟨off.rotation.x * w, off.rotation.y * w,
      off.rotation.z * w, 1 - (1 - off.rotation.w) * w⟩
    if off.bone_index < bs.length then
      let b := bs.getD off.bone_index (V3.zero, Q4.one)
      bs.set off.bone_index (b.1 + translation, qmul b.2 rotation)
    else bs) bones

/-- Embedding of `apply_material_morph_offsets`: `material_index == -1`
broadcasts to every result, otherwise the in-range result is updated. -/
def applyMaterialMorphOffsets (offsets : List MaterialMorphOffset) (w : ℚ)
    (results : List MaterialMorphResult) : List MaterialMorphResult :=
  offsets.foldl (fun rs off =>
    if off.material_index < 0 then
      rs.map (fun r => applyMaterialOffsetToResult r off w)
    else
      let mi := off.material_index.toNat
      if mi < rs.length then
        rs.set mi (applyMaterialOffsetToResult (rs.getD mi materialMorphNew) off w)
      else rs) results

/-- Embedding of `apply_uv_morph_offsets` (x,y components only). -/
def applyUvMorphOffsets (offsets : List UvMorphOffset) (w : ℚ)
    (deltas : List V2) : List V2 :=
  offsets.foldl (fun ds off =>
    if off.vertex_index < ds.length then
      ds.set off.vertex_index
        (ds.getD off.vertex_index V2.zero + (V2.mk off.offset.x off.offset.y).smul w)
    else ds) deltas

/-- Embedding of `MorphManager::apply_single_morph`, with an explicit
fuel bound on the number of nested calls. The Rust recursion carries
only the depth counter; fuel `18` suffices for every execution (proved
below), which is exactly the claim that the depth-guarded recursion
terminates. Guards mirror the source: bail out above depth 16 or below
the weight threshold, skip missing morphs, and for Group/Flip recurse on
sub-entries skipping self references and out-of-range indices. -/
def applySingleMorphF (fo : FloatOps) (morphs : List Morph) :
    Nat → Nat → ℚ → MorphState → Nat → Option MorphState
  | 0, _, _, _, _ => none
  | fuel + 1, morph_idx, w, st, depth =>
    if 16 < depth ∨ |w| < 1 / 1000 then some st
    else
      match morphs.get? morph_idx with
      | none => some st
      | some m =>
        match m.morph_type with
        | MorphType.Vertex =>
          some { st with positions := applyVertexMorphStatic m.vertex_offsets w st.positions }
        | MorphType.Bone =>
          some { st with bones := applyBoneMorphStatic fo m.bone_offsets w st.bones }
        | MorphType.Group | MorphType.Flip =>
          m.group_offsets.foldlM (fun s sub =>
            if sub.morph_index < morphs.length ∧ sub.morph_index ≠ morph_idx then
              applySingleMorphF fo morphs fuel sub.morph_index (w * sub.influence) s (depth + 1)
            else some s) st
        | MorphType.Material =>
          some { st with material_morph_results :=
            applyMaterialMorphOffsets m.material_offsets w st.material_morph_results }
        | MorphType.Uv | MorphType.AdditionalUv1 =>
          some { st with uv_morph_deltas := applyUvMorphOffsets m.uv_offsets w st.uv_morph_deltas }
        | _ => some st

/-- Embedding of `MorphManager::apply_morphs`: reset the material
results and UV deltas, collect the active morphs (`|weight| > 1e-3`),
and apply each from depth 0. -/
def applyMorphs (fo : FloatOps) (morphs : List Morph) (st : MorphState) : Option MorphState :=
  let st0 : MorphState :=
    { st with
      material_morph_results := st.material_morph_results.map (fun _ => materialMorphNew)
      uv_morph_deltas := st.uv_morph_deltas.map (fun _ => V2.zero) }
  let active := (morphs.enum.filter (fun p => 1 / 1000 < |p.2.weight|)).map
    (fun p => (p.1, p.2.weight))
  active.foldlM (fun s p => applySingleMorphF fo morphs 18 p.1 p.2 s 0) st0

theorem foldlM_option_isSome {σ τ : Type} (g : σ → τ → Option σ) :
    ∀ (l : List τ) (init : σ), (∀ s t, t ∈ l → (g s t).isSome) →
      (l.foldlM g init).isSome
  | [], init, _ => by simp [List.foldlM]
  | t :: l, init, h => by
    rw [List.foldlM_cons]
    have h1 := h init t (List.mem_cons_self t l)
    match hg : g init t with
    | none => rw [hg] at h1; cases h1
    | some s2 =>
      simp only [Option.bind_eq_bind, Option.some_bind]
      exact foldlM_option_isSome g l s2 (fun s u hu => h s u (List.mem_cons_of_mem _ hu))

theorem applySingleMorphF_isSome (fo : FloatOps) (morphs : List Morph) :
    ∀ (fuel : Nat) (morph_idx : Nat) (w : ℚ) (st : MorphState) (depth : Nat),
      depth ≤ 17 → 17 < fuel + depth →
      (applySingleMorphF fo morphs fuel morph_idx w st depth).isSome := by
  intro fuel
  induction fuel with
  | zero => intro morph_idx w st depth h1 h2; omega
  | succ fuel ih =>
    intro morph_idx w st depth h1 h2
    rw [applySingleMorphF]
    by_cases hguard : 16 < depth ∨ |w| < 1 / 1000
    · rw [if_pos hguard]; rfl
    · rw [if_neg hguard]
      have hdepth : depth ≤ 16 := by
        rcases Nat.lt_or_ge 16 depth with hgt | hle
        · exact absurd (Or.inl hgt) hguard
        · exact hle
      rcases hm : morphs.get? morph_idx with _ | m
      · rfl
      · obtain ⟨mt, mw, mv, mb, mm, mu, mg⟩ := m
        rcases mt <;> try rfl
        all_goals
          apply foldlM_option_isSome
          intro s sub _
          by_cases hc : sub.morph_index < morphs.length ∧ sub.morph_index ≠ morph_idx
          · rw [if_pos hc]
            exact ih sub.morph_index (w * sub.influence) s (depth + 1) (by omega) (by omega)
          · rw [if_neg hc]; rfl

theorem foldlM_option_congr {σ τ : Type} (g1 g2 : σ → τ → Option σ) :
    ∀ (l : List τ) (init : σ), (∀ s t, t ∈ l → g1 s t = g2 s t) →
      l.foldlM g1 init = l.foldlM g2 init
  | [], _, _ => rfl
  | t :: l, init, h => by
    rw [List.foldlM_cons, List.foldlM_cons, h init t (List.mem_cons_self t l)]
    cases g2 init t with
    | none => rfl
    | some s2 =>
      simp only [Option.bind_eq_bind, Option.some_bind]
      exact foldlM_option_congr g1 g2 l s2 (fun s u hu => h s u (List.mem_cons_of_mem _ hu))

/-- Above the sufficient bound, the fuel parameter is irrelevant: one
more unit of fuel never changes the result, so fuel 18 at depth 0
computes exactly what the unbounded Rust recursion computes. -/
theorem applySingleMorphF_fuel_succ (fo : FloatOps) (morphs : List Morph) :
    ∀ (fuel : Nat) (morph_idx : Nat) (w : ℚ) (st : MorphState) (depth : Nat),
      depth ≤ 17 → 17 < fuel + depth →
      applySingleMorphF fo morphs (fuel + 1) morph_idx w st depth =
        applySingleMorphF fo morphs fuel morph_idx w st depth := by
  intro fuel
  induction fuel with
  | zero => intro morph_idx w st depth h1 h2; omega
  | succ fuel ih =>
    intro morph_idx w st depth h1 h2
    rw [applySingleMorphF, applySingleMorphF]
    by_cases hguard : 16 < depth ∨ |w| < 1 / 1000
    · rw [if_pos hguard, if_pos hguard]
    · rw [if_neg hguard, if_neg hguard]
      have hdepth : depth ≤ 16 := by
        rcases Nat.lt_or_ge 16 depth with hgt | hle
        · exact absurd (Or.inl hgt) hguard
        · exact hle
      rcases hm : morphs.get? morph_idx with _ | m
      · rfl
      · obtain ⟨mt, mw, mv, mb, mm, mu, mg⟩ := m
        rcases mt <;> try rfl
        all_goals
          apply foldlM_option_congr
          intro s sub _
          by_cases hc : sub.morph_index < morphs.length ∧ sub.morph_index ≠ morph_idx
          · rw [if_pos hc, if_pos hc]
            exact ih sub.morph_index (w * sub.influence) s (depth + 1) (by omega) (by omega)
          · rw [if_neg hc, if_neg hc]

theorem applySingleMorphF_fuel_add (fo : FloatOps) (morphs : List Morph) (d : Nat) :
    ∀ (fuel : Nat) (morph_idx : Nat) (w : ℚ) (st : MorphState) (depth : Nat),
      depth ≤ 17 → 17 < fuel + depth →
      applySingleMorphF fo morphs (fuel + d) morph_idx w st depth =
        applySingleMorphF fo morphs fuel morph_idx w st depth := by
  induction d with
  | zero => intro fuel morph_idx w st depth _ _; rfl
  | succ d ihd =>
    intro fuel morph_idx w st depth h1 h2
    have step := applySingleMorphF_fuel_succ fo morphs (fuel + d) morph_idx w st depth h1
      (by omega)
    calc applySingleMorphF fo morphs (fuel + (d + 1)) morph_idx w st depth
        = applySingleMorphF fo morphs (fuel + d) morph_idx w st depth := step
      _ = applySingleMorphF fo morphs fuel morph_idx w st depth :=
          ihd fuel morph_idx w st depth h1 h2

/-- C5: `apply_morphs` terminates on every morph graph, including a
Group or Flip morph referencing itself directly or through a cycle: the
depth-guarded recursion never nests deeper than the limit (18 call
frames, depths 0 through 17, of fuel suffice for every input), so the
model built with exactly that much fuel always produces a result. -/
theorem C5_apply_morphs_terminates (fo : FloatOps) (morphs : List Morph) (st : MorphState) :
    (applyMorphs fo morphs st).isSome = true := by
  unfold applyMorphs
  apply foldlM_option_isSome
  intro s p _
  exact applySingleMorphF_isSome fo morphs 18 p.1 p.2 s 0 (by omega) (by omega)

-- ===========================================================================
-- Bezier curve cache (src/rust_engine/src/animation/bezier_curve.rs)
-- ===========================================================================

/-- The 4-byte control-point cache key (`CurveCacheKey`: c0 and c1). -/
abbrev CurveKey := (Nat × Nat) × (Nat × Nat)

/-- A cached `Arc<BezierCurve>`: its allocation identity and its
`interval`. -/
structure CurveEntry where
  id : Nat
  interval : Nat
  deriving DecidableEq, Repr

/-- The cache: the `HashMap` as an association list, plus an allocation
counter giving every freshly built `Arc` a distinct identity. -/
structure CacheState where
  entries : List (CurveKey × CurveEntry)
  nextId : Nat
  deriving DecidableEq, Repr

/-- Lookup (`HashMap::get`) on the association list. -/
def cacheLookup (entries : List (CurveKey × CurveEntry)) (key : CurveKey) : Option CurveEntry :=
  (entries.find? (fun e => decide (e.1 = key))).map (fun e => e.2)

/-- Embedding of `BezierCurveCache::get_or_new`. `readOk`/`writeOk`
model whether the `RwLock` read/write acquisitions succeed (`Err` on a
poisoned lock); `build_new_curve` returns the next fresh identity and
bumps the counter. On a read hit whose cached `interval` is smaller than
requested, a fresh throwaway curve is built; on a miss the write path
inserts through `entry(key).or_insert_with`. -/
def getOrNew (st : CacheState) (readOk writeOk : Bool) (key : CurveKey) (interval : Nat) :
    Nat × CacheState :=
  let fresh := (st.nextId, { st with nextId := st.nextId + 1 })
  if readOk then
    match cacheLookup st.entries key with
    | some e => if e.interval < interval then fresh else (e.id, st)
    | none =>
      if writeOk then
        match cacheLookup st.entries key with
        | some e => (e.id, st)
        | none =>
          (st.nextId,
           { entries := st.entries ++ [(key, ⟨st.nextId, interval⟩)], nextId := st.nextId + 1 })
      else fresh
  else fresh

/-- The empty cache (`BezierCurveCache::new`). -/
def cache0 : CacheState := ⟨[], 0⟩

/-- C7 counterexample: two calls with identical control-point bytes do
NOT always return identity-equal handles: after caching the curve at
interval 1, a second call requesting interval 2 finds the cached
interval too small and builds (and returns) a fresh curve. -/
theorem C7_identity_counterexample :
    (getOrNew (getOrNew cache0 true true ((1, 2), (3, 4)) 1).2
        true true ((1, 2), (3, 4)) 2).1 ≠
      (getOrNew cache0 true true ((1, 2), (3, 4)) 1).1 := by
  decide

theorem cacheLookup_append_self (entries : List (CurveKey × CurveEntry)) (key : CurveKey)
    (e : CurveEntry) (h : cacheLookup entries key = none) :
    cacheLookup (entries ++ [(key, e)]) key = some e := by
  induction entries with
  | nil => simp [cacheLookup]
  | cons a l ih =>
    unfold cacheLookup at h ⊢
    rcases ha : decide (a.1 = key) with _ | _
    · rw [List.cons_append, List.find?_cons_of_neg _ (by simp [ha])]
      rw [List.find?_cons_of_neg _ (by simp [ha])] at h
      exact ih h
    · rw [List.find?_cons_of_pos _ (by simp_all)] at h
      simp at h

/-- C7 amended: with identical control-point bytes, successful lock
acquisitions, and a second request whose interval does not exceed the
first's, `get_or_new` returns identity-equal handles; in general, a
read-lock hit returns the cached curve exactly when its interval is at
least the requested one and otherwise builds a fresh curve, and a failed
lock acquisition always builds a fresh curve instead of blocking. -/
theorem C7_cache_semantics :
    (∀ (st : CacheState) (key : CurveKey) (i1 i2 : Nat),
      cacheLookup st.entries key = none → i2 ≤ i1 →
      (getOrNew (getOrNew st true true key i1).2 true true key i2).1 =
        (getOrNew st true true key i1).1) ∧
    (∀ (st : CacheState) (w : Bool) (key : CurveKey) (i : Nat) (e : CurveEntry),
      cacheLookup st.entries key = some e →
      getOrNew st true w key i =
        (if e.interval < i then (st.nextId, { st with nextId := st.nextId + 1 })
         else (e.id, st))) ∧
    (∀ (st : CacheState) (w : Bool) (key : CurveKey) (i : Nat),
      getOrNew st false w key i = (st.nextId, { st with nextId := st.nextId + 1 })) := by
  refine ⟨?_, ?_, ?_⟩
  · intro st key i1 i2 hnone hle
    obtain ⟨entries, nid⟩ := st
    dsimp only at hnone
    have h1 : getOrNew ⟨entries, nid⟩ true true key i1 =
        (nid, ⟨entries ++ [(key, ⟨nid, i1⟩)], nid + 1⟩) := by
      unfold getOrNew
      rw [if_pos rfl]
      dsimp only
      rw [hnone]
      rfl
    rw [h1]
    unfold getOrNew
    rw [if_pos rfl]
    dsimp only
    rw [cacheLookup_append_self entries key ⟨nid, i1⟩ hnone]
    dsimp only
    rw [if_neg (by omega)]
  · intro st w key i e hsome
    obtain ⟨entries, nid⟩ := st
    dsimp only at hsome ⊢
    unfold getOrNew
    rw [if_pos rfl]
    dsimp only
    rw [hsome]
  · intro st w key i
    rfl

theorem C7_cache_semantics_witness :
    ((getOrNew (getOrNew cache0 true true ((1, 2), (3, 4)) 5).2
        true true ((1, 2), (3, 4)) 5).1 =
      (getOrNew cache0 true true ((1, 2), (3, 4)) 5).1) ∧
    (getOrNew ⟨[(((1, 2), (3, 4)), ⟨0, 5⟩)], 1⟩ true true ((1, 2), (3, 4)) 3 =
      (if (5 : Nat) < 3 then ((1 : Nat), ⟨[(((1, 2), (3, 4)), ⟨0, 5⟩)], 2⟩)
       else ((0 : Nat), (⟨[(((1, 2), (3, 4)), ⟨0, 5⟩)], 1⟩ : CacheState)))) ∧
    (getOrNew cache0 false true ((1, 2), (3, 4)) 7 = (0, ⟨[], 1⟩)) :=
  ⟨C7_cache_semantics.1 cache0 ((1, 2), (3, 4)) 5 5 (by decide) (by decide),
   C7_cache_semantics.2.1 ⟨[(((1, 2), (3, 4)), ⟨0, 5⟩)], 1⟩ true ((1, 2), (3, 4)) 3 ⟨0, 5⟩
     (by decide),
   C7_cache_semantics.2.2 cache0 true ((1, 2), (3, 4)) 7⟩

-- ===========================================================================
-- Physics bridge teardown (src/rust_engine/src/physics/mmd_physics.rs)
-- ===========================================================================

/-- The world-affecting calls of the physics teardown. -/
inductive PhysEvent
  | removeConstraint (id : Nat)
  | removeBody (id : Nat)
  | destroyWorld
  deriving DecidableEq, Repr

/-- Embedding of `impl Drop for MMDPhysics`: remove every present
joint constraint from the world, then every present rigid body, after
which the fields drop in declaration order (`joints`, `rigid_bodies`,
`world`) so the `world` field's drop destroys the world last. The trace
lists the world-affecting calls in program order; `joints` and `bodies`
carry the optional handles (`joint.constraint`, `rb.bullet_body`). -/
def mmdPhysicsDropTrace (joints bodies : List (Option Nat)) : List PhysEvent :=
  (joints.filterMap (fun c => c)).map PhysEvent.removeConstraint ++
    ((bodies.filterMap (fun c => c)).map PhysEvent.removeBody ++ [PhysEvent.destroyWorld])

theorem dropTrace_constraint_lt (joints bodies : List (Option Nat)) (i a : Nat)
    (h : (mmdPhysicsDropTrace joints bodies)[i]? = some (PhysEvent.removeConstraint a)) :
    i < ((joints.filterMap (fun c => c)).map PhysEvent.removeConstraint).length := by
  by_contra hge
  push_neg at hge
  rw [mmdPhysicsDropTrace, List.getElem?_append_right hge] at h
  have hmem := List.getElem?_mem h
  rcases List.mem_append.1 hmem with hm | hm
  · rcases List.mem_map.1 hm with ⟨b, _, hb⟩
    exact PhysEvent.noConfusion hb
  · exact PhysEvent.noConfusion (List.mem_singleton.1 hm)

theorem dropTrace_body_range (joints bodies : List (Option Nat)) (j b : Nat)
    (h : (mmdPhysicsDropTrace joints bodies)[j]? = some (PhysEvent.removeBody b)) :
    ((joints.filterMap (fun c => c)).map PhysEvent.removeConstraint).length ≤ j ∧
    j < ((joints.filterMap (fun c => c)).map PhysEvent.removeConstraint).length +
      ((bodies.filterMap (fun c => c)).map PhysEvent.removeBody).length := by
  constructor
  · by_contra hlt
    push_neg at hlt
    rw [mmdPhysicsDropTrace, List.getElem?_append_left hlt] at h
    have hmem := List.getElem?_mem h
    rcases List.mem_map.1 hmem with ⟨c, _, hc⟩
    exact PhysEvent.noConfusion hc
  · by_contra hge
    push_neg at hge
    rw [mmdPhysicsDropTrace, List.getElem?_append_right (by omega)] at h
    rw [List.getElem?_append_right (by omega)] at h
    have hmem := List.getElem?_mem h
    exact PhysEvent.noConfusion (List.mem_singleton.1 hmem)

theorem dropTrace_destroy_eq (joints bodies : List (Option Nat)) (j : Nat)
    (h : (mmdPhysicsDropTrace joints bodies)[j]? = some PhysEvent.destroyWorld) :
    j = ((joints.filterMap (fun c => c)).map PhysEvent.removeConstraint).length +
      ((bodies.filterMap (fun c => c)).map PhysEvent.removeBody).length := by
  rcases Nat.lt_or_ge j
      ((joints.filterMap (fun c => c)).map PhysEvent.removeConstraint).length with hlt | hge
  · rw [mmdPhysicsDropTrace, List.getElem?_append_left hlt] at h
    have hmem := List.getElem?_mem h
    rcases List.mem_map.1 hmem with ⟨c, _, hc⟩
    exact PhysEvent.noConfusion hc
  · rw [mmdPhysicsDropTrace, List.getElem?_append_right hge] at h
    rcases Nat.lt_or_ge (j - ((joints.filterMap (fun c => c)).map
        PhysEvent.removeConstraint).length)
        ((bodies.filterMap (fun c => c)).map PhysEvent.removeBody).length with hlt2 | hge2
    · rw [List.getElem?_append_left hlt2] at h
      have hmem := List.getElem?_mem h
      rcases List.mem_map.1 hmem with ⟨c, _, hc⟩
      exact PhysEvent.noConfusion hc
    · rw [List.getElem?_append_right hge2] at h
      have hj := List.getElem?_eq_some.1 h
      rcases hj with ⟨hjlt, _⟩
      simp only [List.length_singleton] at hjlt
      omega

/-- C9: the teardown trace is strictly ordered: every constraint
removal precedes every body removal, every removal precedes the world
destruction, and the world destruction is the final event of the trace. -/
theorem C9_teardown_order (joints bodies : List (Option Nat)) :
    (∀ (i j a b : Nat),
      (mmdPhysicsDropTrace joints bodies)[i]? = some (PhysEvent.removeConstraint a) →
      (mmdPhysicsDropTrace joints bodies)[j]? = some (PhysEvent.removeBody b) → i < j) ∧
    (∀ (i j a : Nat),
      (mmdPhysicsDropTrace joints bodies)[i]? = some (PhysEvent.removeConstraint a) →
      (mmdPhysicsDropTrace joints bodies)[j]? = some PhysEvent.destroyWorld → i < j) ∧
    (∀ (i j b : Nat),
      (mmdPhysicsDropTrace joints bodies)[i]? = some (PhysEvent.removeBody b) →
      (mmdPhysicsDropTrace joints bodies)[j]? = some PhysEvent.destroyWorld → i < j) ∧
    (mmdPhysicsDropTrace joints bodies)[(mmdPhysicsDropTrace joints bodies).length - 1]? =
      some PhysEvent.destroyWorld := by
  refine ⟨?_, ?_, ?_, ?_⟩
  · intro i j a b hi hj
    have h1 := dropTrace_constraint_lt joints bodies i a hi
    have h2 := (dropTrace_body_range joints bodies j b hj).1
    omega
  · intro i j a hi hj
    have h1 := dropTrace_constraint_lt joints bodies i a hi
    have h2 := dropTrace_destroy_eq joints bodies j hj
    omega
  · intro i j b hi hj
    have h1 := (dropTrace_body_range joints bodies i b hi).2
    have h2 := dropTrace_destroy_eq joints bodies j hj
    omega
  · have hlen : (mmdPhysicsDropTrace joints bodies).length =
        ((joints.filterMap (fun c => c)).map PhysEvent.removeConstraint).length +
        ((bodies.filterMap (fun c => c)).map PhysEvent.removeBody).length + 1 := by
      simp [mmdPhysicsDropTrace]
      omega
    rw [hlen]
    simp only [Nat.add_sub_cancel]
    rw [mmdPhysicsDropTrace, List.getElem?_append_right (by omega)]
    rw [List.getElem?_append_right (by omega)]
    simp

theorem C9_teardown_order_witness :
    (0 : Nat) < 1 ∧ (0 : Nat) < 2 ∧ (1 : Nat) < 2 ∧
    (mmdPhysicsDropTrace [some 0] [some 1])[
      (mmdPhysicsDropTrace [some 0] [some 1]).length - 1]? =
      some PhysEvent.destroyWorld :=
  ⟨(C9_teardown_order [some 0] [some 1]).1 0 1 0 1 (by decide) (by decide),
   (C9_teardown_order [some 0] [some 1]).2.1 0 2 0 (by decide) (by decide),
   (C9_teardown_order [some 0] [some 1]).2.2.1 1 2 1 (by decide) (by decide),
   (C9_teardown_order [some 0] [some 1]).2.2.2⟩

end MMD
